import Mathlib

/-!
Verification of the fc2-live-dl downloader (`fc2_live_dl2.py`).

The development shallowly embeds the parts of the program the claims are
about:

* the control-channel websocket client `FC2WebSocket`: its response table
  (`_msg_responses`), the behaviour of `_receive_message`,
  `_send_message_and_wait`, `get_hls_information` and the inbound dispatch
  loop `_handle_incoming`;
* the variant-selection pipeline of `FC2LiveDL`: `_merge_playlists`,
  `_sort_playlists`, `_get_playlist_or_best`, `_get_mode`, `_format_mode`
  and the quality/latency codebooks;
* the ffmpeg status-line handling of `LiveStreamRecorder`: `get_status`
  and `print_status`.

JSON messages are modelled by the inductive `JVal`; Python dictionaries by
association lists with in-place update (`dictSet`) and first-match lookup
(`dictGet`), which matches the insertion-ordered semantics of `dict`.
Fallible Python code (KeyError, ValueError, IndexError, a failed read) is
modelled with `Option`/`Except`.
-/

/-! ### JSON values

A JSON value as handled by `receive_json`/`send_json`.  The three mutual
inductives encode values, arrays and objects; an object keeps its fields in
insertion order, as a Python `dict` does. -/

mutual

inductive JVal where
  | null : JVal
  | num : Int → JVal
  | str : String → JVal
  | arr : JArr → JVal
  | obj : JObj → JVal
deriving DecidableEq

inductive JArr where
  | nil : JArr
  | cons : JVal → JArr → JArr
deriving DecidableEq

inductive JObj where
  | nil : JObj
  | cons : String → JVal → JObj → JObj
deriving DecidableEq

end

/-- Lookup of a key in a JSON object (first matching field). -/
def JObj.find : JObj → String → Option JVal
  | .nil, _ => none
  | .cons k' v rest, k => if k' = k then some v else JObj.find rest k

/-- Model of the Python subscript `msg[k]` on a decoded JSON value: `some`
of the field when the value is an object carrying the key, `none` (a
`KeyError`/`TypeError`) otherwise. -/
def jget (v : JVal) (k : String) : Option JVal :=
  match v with
  | .obj fields => fields.find k
  | _ => none

/-- Builds a JSON object from a list of key/value pairs. -/
def jobj : List (String × JVal) → JObj
  | [] => .nil
  | kv :: rest => .cons kv.1 kv.2 (jobj rest)

/-- Builds a JSON array from a list of values. -/
def jarr : List JVal → JArr
  | [] => .nil
  | v :: rest => .cons v (jarr rest)

/-! ### Python dictionaries as association lists -/

/-- Model of the Python assignment `d[k] = v`: replace the value of an
existing key in place, otherwise append the new key at the end.  This is
the insertion-order-preserving update of a Python `dict`. -/
def dictSet {κ ν : Type} [DecidableEq κ] : List (κ × ν) → κ → ν → List (κ × ν)
  | [], k, v => [(k, v)]
  | kv :: rest, k, v => if kv.1 = k then (k, v) :: rest else kv :: dictSet rest k v

/-- Model of the Python subscript `d[k]` on a `dict`: `some` of the stored
value, `none` (a `KeyError`) when the key is absent. -/
def dictGet {κ ν : Type} [DecidableEq κ] : List (κ × ν) → κ → Option ν
  | [], _ => none
  | kv :: rest, k => if kv.1 = k then some kv.2 else dictGet rest k

/-! ### FC2WebSocket: response correlation table

`FC2WebSocket._receive_message` (lines 141-151) is executed both by the
dispatch task `_handle_incoming` (with `msg_id=None`) and by callers of
`_send_message_and_wait` (with the allocated id).  Whichever task performs
the `receive_json`, a message named `_response_` is stored *whole* into
`self._msg_responses` under its own `id` (lines 148-149) and is never
returned to a `msg_id=None` receiver; consequently the `_response_` branch
of `_handle_incoming` (lines 119-120) is unreachable.  `receive_store`
models the effect on the table of one received message, identical for
every receiving task. -/

/-- The `_msg_responses` dictionary: message id to stored response message. -/
def WsTable : Type := List (JVal × JVal)

instance : DecidableEq WsTable := by
  unfold WsTable
  infer_instance

/-- Effect of one `receive_json` on `_msg_responses` (lines 146-151),
whichever task performs it: a `_response_` message is stored whole under
`msg['id']`; any other message leaves the table unchanged.  `none` models
the `KeyError` when `msg['name']` (or, for a response, `msg['id']`) is
missing. -/
def receive_store (table : WsTable) (msg : JVal) : Option WsTable :=
  match jget msg "name" with
  | none => none
  | some name =>
    if name = .str "_response_" then
      match jget msg "id" with
      | none => none
      | some i => some (dictSet table i msg)
    else
      some table

/-- The table after a sequence of messages has been taken off the socket,
in arrival order, each by whichever task was receiving. -/
def run_table (table : WsTable) : List JVal → Option WsTable
  | [] => some table
  | msg :: rest =>
    match receive_store table msg with
    | none => none
    | some t => run_table t rest

/-- Whether a message is the response correlated to the request id
`msg_id`: its name is `_response_` and its own id equals `msg_id`. -/
def isResponseTo (msg_id msg : JVal) : Bool :=
  decide (jget msg "name" = some (.str "_response_")) &&
    decide (jget msg "id" = some msg_id)

/-- Value returned by `_send_message_and_wait` (lines 137-139) once the
response for `msg_id` is in the table: `_receive_message(msg_id)` pops and
returns the stored entry. -/
def send_message_and_wait_result (table : WsTable) (msg_id : JVal) : Option JVal :=
  dictGet table msg_id

/-- Value returned by `get_hls_information` (lines 110-112): the
`arguments` field of the message `_send_message_and_wait` returned. -/
def get_hls_information_result (table : WsTable) (msg_id : JVal) : Option JVal :=
  match dictGet table msg_id with
  | none => none
  | some msg => jget msg "arguments"

/-! ### FC2WebSocket: the dispatch loop -/

/-- Typed failures of the dispatch loop: the two `ServerDisconnection`
subtypes raised on `control_disconnection` codes, and `keyError` for a
missing expected field (a fatal decode failure). -/
inductive WsErr where
  | keyError : WsErr
  | paidProgram : WsErr
  | multipleConnection : WsErr
deriving DecidableEq

/-- State owned by one `FC2WebSocket` session: the response table, the
`_is_ready` flag, the contents of the `comments` queue (line 94), and the
list of messages passed to the trace logger by `_receive_message`
(line 147). -/
structure WsState where
  msg_responses : WsTable
  is_ready : Bool
  comments : List JVal
  trace : List JVal
deriving DecidableEq

/-- One iteration of the dispatch loop `_handle_incoming` (lines 114-129)
processing the next message taken off the socket.  The message is first
trace-logged by `_receive_message` (line 147).  A `_response_` message is
stored whole by `_receive_message` itself (lines 148-149) and the loop
continues; the `_response_` branch at lines 119-120 is unreachable.  For a
`comment` message, line 129 invokes the coroutine function
`asyncio.Queue.put` without awaiting it, so the produced coroutine object
is discarded and the queue contents are not modified. -/
def dispatch_message (st : WsState) (msg : JVal) : Except WsErr WsState :=
  let st1 : WsState := { st with trace := st.trace ++ [msg] }
  match jget msg "name" with
  | none => .error .keyError
  | some name =>
    if name = .str "_response_" then
      match jget msg "id" with
      | none => .error .keyError
      | some i => .ok { st1 with msg_responses := dictSet st1.msg_responses i msg }
    else if name = .str "connect_complete" then
      .ok { st1 with is_ready := true }
    else if name = .str "control_disconnection" then
      match jget msg "arguments" with
      | none => .error .keyError
      | some args =>
        match jget args "code" with
        | none => .error .keyError
        | some code =>
          if code = .num 4101 then .error .paidProgram
          else if code = .num 4512 then .error .multipleConnection
          else .ok st1
    else if name = .str "comment" then
      match jget msg "arguments" with
      | none => .error .keyError
      | some args =>
        match jget args "comments" with
        | some (.arr _elems) => .ok st1
        | _ => .error .keyError
    else
      .ok st1

/-! ### FC2LiveDL: stream variants and selection -/

/-- One entry of the HLS manifest: a stream variant. -/
structure Playlist where
  mode : Int
  url : String
deriving DecidableEq

/-- The HLS manifest object, with its three optional variant lists;
`none` models an absent key. -/
structure HlsInfo where
  playlists : Option (List Playlist)
  playlists_high_latency : Option (List Playlist)
  playlists_middle_latency : Option (List Playlist)
deriving DecidableEq

/-- Model of `FC2LiveDL._merge_playlists` (lines 390-395): extend an
empty list with each of the three lists that is present, in the fixed key
order `playlists`, `playlists_high_latency`, `playlists_middle_latency`. -/
def merge_playlists (hls_info : HlsInfo) : List Playlist :=
  let acc : List Playlist := []
  let acc := match hls_info.playlists with
    | some l => acc ++ l
    | none => acc
  let acc := match hls_info.playlists_high_latency with
    | some l => acc ++ l
    | none => acc
  match hls_info.playlists_middle_latency with
  | some l => acc ++ l
  | none => acc

/-- The sort key `key_map` of `FC2LiveDL._sort_playlists` (lines 378-382). -/
def key_map (playlist : Playlist) : Int :=
  if playlist.mode ≥ 90 then playlist.mode - 90 else playlist.mode

/-- Model of `FC2LiveDL._sort_playlists` (lines 384-388), i.e. of Python
`sorted(merged_playlists, reverse=True, key=key_map)`.  Python's `sorted`
is specified to be a stable sort, and with `reverse=True` elements with
equal keys likewise keep their original relative order; a stable
descending insertion sort has exactly these properties, and they determine
the output uniquely. -/
def sort_playlists (merged_playlists : List Playlist) : List Playlist :=
  merged_playlists.insertionSort (fun a b => key_map b ≤ key_map a)

/-- Model of `FC2LiveDL._get_playlist_or_best` (lines 366-375): scan the
sequence keeping the last element whose `mode` equals `mode`; fall back to
the first element.  `none` models the `IndexError` of
`sorted_playlists[0]` on an empty sequence. -/
def get_playlist_or_best (sorted_playlists : List Playlist) (mode : Option Int) :
    Option Playlist :=
  match sorted_playlists.foldl
      (fun acc p => if some p.mode = mode then some p else acc) none with
  | some p => some p
  | none => sorted_playlists.head?

/-- The quality codebook `FC2LiveDL.STREAM_QUALITY` (lines 288-295). -/
def STREAM_QUALITY : List (String × Int) :=
  [("150Kbps", 10), ("400Kbps", 20), ("1.2Mbps", 30), ("2Mbps", 40),
   ("3Mbps", 50), ("sound", 90)]

/-- The latency codebook `FC2LiveDL.STREAM_LATENCY` (lines 296-300). -/
def STREAM_LATENCY : List (String × Int) :=
  [("low", 0), ("high", 1), ("mid", 2)]

/-- Model of `FC2LiveDL._get_mode` (lines 397-401), parametrised by the
`quality` and `latency` params; `none` models the `KeyError` on a key
missing from a codebook. -/
def get_mode (quality latency : String) : Option Int :=
  match dictGet STREAM_QUALITY quality, dictGet STREAM_LATENCY latency with
  | some q, some l => some (0 + q + l)
  | _, _ => none

/-- The helper `dict_search` of `FC2LiveDL._format_mode` (lines 404-405):
the first key of `haystack` whose value equals `needle`; `none` models the
`ValueError` of `list.index` when no value matches. -/
def dict_search : List (String × Int) → Int → Option String
  | [], _ => none
  | kv :: rest, needle => if kv.2 = needle then some kv.1 else dict_search rest needle

/-- Model of `FC2LiveDL._format_mode` (lines 403-408).  Python `%` and
`//` are floor operations, i.e. `Int.fmod` and `Int.fdiv`. -/
def format_mode (mode : Int) : Option (String × String) :=
  match dict_search STREAM_LATENCY (Int.fmod mode 10),
      dict_search STREAM_QUALITY (Int.fdiv mode 10 * 10) with
  | some latency, some quality => some (quality, latency)
  | _, _ => none

/-- Model of `FC2LiveDL._get_hls_url` (lines 359-364) up to the final
`playlist['url']` projection: mode resolution, merge, sort, selection. -/
def get_hls_playlist (hls_info : HlsInfo) (quality latency : String) : Option Playlist :=
  match get_mode quality latency with
  | none => none
  | some mode =>
    get_playlist_or_best (sort_playlists (merge_playlists hls_info)) (some mode)

/-- Model of `FC2LiveDL._get_hls_url` (lines 359-364). -/
def get_hls_url (hls_info : HlsInfo) (quality latency : String) : Option String :=
  (get_hls_playlist hls_info quality latency).map Playlist.url

/-! ### LiveStreamRecorder: the ffmpeg status line

`get_status` (lines 264-284) reads one chunk of ffmpeg's stderr up to and
including the `b'\x0d'` terminator, decodes it, and parses it into the
`stats` dictionary.  Python strings are modelled as `List Char`, and
`str.split(sep)` as `pysplit`, because the parse must be executable in
proofs.  A failed read (`readuntil` hitting the end of the stream) is
modelled by passing `none` for the line. -/

/-- Model of Python `s.split(sep)` for a one-character separator: split at
every occurrence of `sep`, keeping empty pieces, so that
`pysplit sep s` always has one more piece than `s` has separators. -/
def pysplit (sep : Char) : List Char → List (List Char)
  | [] => [[]]
  | c :: rest =>
    if c = sep then [] :: pysplit sep rest
    else
      match pysplit sep rest with
      | t :: ts => (c :: t) :: ts
      | [] => [[c]]

/-- A value of the `stats` dictionary: the integer defaults of lines
266-274 or a parsed string token. -/
inductive StatVal where
  | int : Int → StatVal
  | str : List Char → StatVal
deriving DecidableEq

/-- The `stats` dictionary of `get_status`, insertion-ordered. -/
def StatsDict : Type := List (List Char × StatVal)

instance : DecidableEq StatsDict := by
  unfold StatsDict
  infer_instance

/-- The defaults of the `stats` dictionary (lines 266-274). -/
def status_defaults : StatsDict :=
  [("frame".data, .int 0), ("fps".data, .int 0), ("q".data, .int 0),
   ("size".data, .str "0kB".data), ("time".data, .str "00:00:00.00".data),
   ("bitrate".data, .str "N/A".data), ("speed".data, .str "N/A".data)]

/-- The token loop of `get_status` (lines 275-283).  For each token: if
the previous token ended with `=`, assign the token as the value of that
key (`stats[last_item[:-1]] = item`); else if the token contains `=`,
unpack `item.split('=')` into exactly a key and a value — `none` models
the `ValueError` raised by the unpacking when the token holds more than
one `=`; else the token only becomes the new `last_item`. -/
def status_loop : List (List Char) → List Char → StatsDict → Option StatsDict
  | [], _, stats => some stats
  | item :: rest, last_item, stats =>
    if last_item.getLast? = some '=' then
      status_loop rest item (dictSet stats last_item.dropLast (.str item))
    else if '=' ∈ item then
      match pysplit '=' item with
      | [k, v] => status_loop rest item (dictSet stats k (.str v))
      | _ => none
    else
      status_loop rest item stats

/-- Model of `LiveStreamRecorder.get_status` (lines 264-284).  The
argument is the decoded text read up to and including the `'\x0d'`
terminator; `none` models a failed read.  Tokens are the nonempty pieces
of `stderr.split(' ')` (line 276), and `last_item` starts as `"-"`
(line 275). -/
def get_status (stderr : Option String) : Option StatsDict :=
  match stderr with
  | none => none
  | some s =>
    let parts := (pysplit ' ' s.data).filter (fun x => decide (0 < x.length))
    status_loop parts "-".data status_defaults

/-- Model of `LiveStreamRecorder.print_status` (lines 255-262): `True`
when `get_status` returned a record and the `time` and `size` lookups of
line 258 succeed, `False` when anything in the `try` block failed — the
bare `except:` catches every exception. -/
def print_status (stderr : Option String) : Bool :=
  match get_status stderr with
  | none => false
  | some stats =>
    match dictGet stats "time".data, dictGet stats "size".data with
    | some _, some _ => true
    | _, _ => false

/-- Classification of one token per the specification's wording: a token
after a token ending in `=` is that key's value; otherwise a token with
exactly one `=` is split into key and value; a token with more than one
`=` fails the parse; any other token is ignored. -/
def statusTokenStep (stats : StatsDict) (prev item : List Char) : Option StatsDict :=
  if prev.getLast? = some '=' then
    some (dictSet stats prev.dropLast (.str item))
  else if '=' ∈ item then
    match pysplit '=' item with
    | [k, v] => some (dictSet stats k (.str v))
    | _ => none
  else
    some stats

/-- Folds `statusTokenStep` over tokens paired with their predecessors. -/
def statusSpecLoop : List (List Char × List Char) → StatsDict → Option StatsDict
  | [], stats => some stats
  | (item, prev) :: rest, stats =>
    match statusTokenStep stats prev item with
    | none => none
    | some stats' => statusSpecLoop rest stats'

/-- Parser written from the specification's wording: each nonempty token,
paired with its predecessor (initially `"-"`), updates the default
dictionary through `statusTokenStep`. -/
def statusSpecParse (line : String) : Option StatsDict :=
  let toks := (pysplit ' ' line.data).filter (fun x => decide (0 < x.length))
  statusSpecLoop (toks.zip ("-".data :: toks)) status_defaults

/-! ### Concrete scenario values used by the theorems below -/

instance : IsTotal Playlist (fun a b => key_map b ≤ key_map a) :=
  ⟨fun a b => le_total (key_map b) (key_map a)⟩

instance : IsTrans Playlist (fun a b => key_map b ≤ key_map a) :=
  ⟨fun _ _ _ h1 h2 => le_trans h2 h1⟩

/-- A `control_disconnection` message with the given numeric code. -/
def disconnection_msg (code : Int) : JVal :=
  .obj (jobj [("name", .str "control_disconnection"),
    ("arguments", .obj (jobj [("code", .num code)])), ("id", .num 0)])

/-- An initial session state: empty table, not ready, empty queue, empty
trace. -/
def ws_state0 : WsState := ⟨[], false, [], []⟩

/-- A `comment` push message carrying two chat comments. -/
def comment_msg : JVal :=
  .obj (jobj [("name", .str "comment"),
    ("arguments", .obj (jobj [("comments", .arr (jarr [.str "hello", .str "world"]))])),
    ("id", .num 0)])

/-- The response message with numeric id `i` and arguments `args`. -/
def response_msg (i : Int) (args : JVal) : JVal :=
  .obj (jobj [("name", .str "_response_"), ("id", .num i), ("arguments", args)])

/-- The response correlated to request id 1. -/
def c1_first_response : JVal :=
  response_msg 1 (.obj (jobj [("playlists", .arr (jarr [.str "u"]))]))

/-- The response correlated to request id 2. -/
def c1_second_response : JVal :=
  response_msg 2 (.obj (jobj [("playlists", .arr (jarr [.str "v"]))]))

/-- The table after both responses arrived, the one for id 2 first. -/
def c1_table : WsTable :=
  [(.num 2, c1_second_response), (.num 1, c1_first_response)]

/-- The status line of the specification's scenario, as read up to and
including its terminating carriage return. -/
def status_scenario_line : String :=
  "frame=10 fps=25.0 q=-1.0 size=1024kB time=00:00:01.00 bitrate=N/A speed=1.0x\r"

/-- What `get_status` actually produces on the scenario line: the final
token keeps the carriage-return terminator, so `speed` is parsed as the
five characters `1.0x\x0d`. -/
def status_scenario_actual : StatsDict :=
  [("frame".data, .str "10".data), ("fps".data, .str "25.0".data),
   ("q".data, .str "-1.0".data), ("size".data, .str "1024kB".data),
   ("time".data, .str "00:00:01.00".data), ("bitrate".data, .str "N/A".data),
   ("speed".data, .str "1.0x\r".data)]

/-- The parse the claim expects for the scenario line, with `speed`
parsed as the four characters `1.0x`. -/
def status_scenario_claimed : StatsDict :=
  [("frame".data, .str "10".data), ("fps".data, .str "25.0".data),
   ("q".data, .str "-1.0".data), ("size".data, .str "1024kB".data),
   ("time".data, .str "00:00:01.00".data), ("bitrate".data, .str "N/A".data),
   ("speed".data, .str "1.0x".data)]

/-! ### Helper lemmas: association lists and last-match folds -/

theorem dictGet_dictSet_self {κ ν : Type} [DecidableEq κ] (d : List (κ × ν)) (k : κ) (v : ν) :
    dictGet (dictSet d k v) k = some v := by
  induction d with
  | nil => simp [dictSet, dictGet]
  | cons kv rest ih =>
    by_cases h : kv.1 = k
    · simp [dictSet, dictGet, h]
    · simp [dictSet, dictGet, h, ih]

theorem dictGet_dictSet_ne {κ ν : Type} [DecidableEq κ] (d : List (κ × ν)) (k k' : κ) (v : ν)
    (h : k' ≠ k) : dictGet (dictSet d k' v) k = dictGet d k := by
  induction d with
  | nil => simp [dictSet, dictGet, h]
  | cons kv rest ih =>
    by_cases hk : kv.1 = k'
    · simp [dictSet, dictGet, hk, h]
    · by_cases hk2 : kv.1 = k <;> simp [dictSet, dictGet, hk, hk2, ih, Ne.symm h]

theorem dictGet_dictSet_isSome {κ ν : Type} [DecidableEq κ] (d : List (κ × ν)) (k k' : κ)
    (v : ν) (h : (dictGet d k).isSome) : (dictGet (dictSet d k' v) k).isSome := by
  by_cases hk : k' = k
  · subst hk
    simp [dictGet_dictSet_self]
  · rwa [dictGet_dictSet_ne _ _ _ _ hk]

theorem find?_append_match {α : Type} (l₁ l₂ : List α) (f : α → Bool) :
    (l₁ ++ l₂).find? f =
      match l₁.find? f with
      | some x => some x
      | none => l₂.find? f := by
  induction l₁ with
  | nil => simp
  | cons a t ih =>
    by_cases h : f a <;> simp [List.find?_cons, h, ih]

theorem foldl_overwrite (m : Int) (l : List Playlist) :
    ∀ a : Option Playlist,
      l.foldl (fun acc p => if some p.mode = some m then some p else acc) a =
        match l.reverse.find? (fun p => p.mode == m) with
        | some p => some p
        | none => a := by
  induction l with
  | nil => intro a; rfl
  | cons p rest ih =>
    intro a
    rw [List.foldl_cons, ih, List.reverse_cons, find?_append_match]
    cases rest.reverse.find? (fun p => p.mode == m) with
    | some q => rfl
    | none =>
      by_cases hp : p.mode = m
      · simp [List.find?, hp]
      · have hb : (p.mode == m) = false := beq_eq_false_iff_ne.mpr hp
        simp [List.find?, hb, hp]

/-- C8: merging returns exactly the concatenation of the present lists,
in the fixed key order `playlists`, `playlists_high_latency`,
`playlists_middle_latency`, preserving each list's internal order; absent
keys contribute nothing and all three absent yields the empty list. -/
theorem merge_playlists_concat (hls_info : HlsInfo) :
    merge_playlists hls_info =
      hls_info.playlists.getD [] ++ hls_info.playlists_high_latency.getD [] ++
        hls_info.playlists_middle_latency.getD [] ∧
    merge_playlists ⟨none, none, none⟩ = [] := by
  constructor
  · rcases hls_info with ⟨p, ph, pm⟩
    rcases p with _ | p <;> rcases ph with _ | ph <;> rcases pm with _ | pm <;>
      simp [merge_playlists]
  · rfl

/-- C2: on a non-empty sorted sequence, selection returns the last
element whose `mode` equals the desired mode, and the first element of
the sequence when none matches; in particular the full pipeline on the
manifest with playlists `[(50, a), (52, b)]` at quality `3Mbps`, latency
`mid` (desired mode 52) selects `(52, b)`. -/
theorem get_playlist_or_best_last_match (l : List Playlist) (m : Int) (_hl : l ≠ []) :
    (get_playlist_or_best l (some m) =
      match l.reverse.find? (fun p => p.mode == m) with
      | some p => some p
      | none => l.head?) ∧
    get_hls_playlist ⟨some [⟨50, "a"⟩, ⟨52, "b"⟩], none, none⟩ "3Mbps" "mid" =
      some ⟨52, "b"⟩ := by
  refine ⟨?_, by decide⟩
  unfold get_playlist_or_best
  rw [foldl_overwrite]
  cases l.reverse.find? (fun p => p.mode == m) with
  | some q => rfl
  | none => rfl

/-- Witness for the C2 theorem at the sorted sequence
`[(52, b), (50, a)]` and desired mode 52. -/
theorem get_playlist_or_best_last_match_witness :
    ([(⟨52, "b"⟩ : Playlist), ⟨50, "a"⟩] ≠ []) ∧
    (get_playlist_or_best [⟨52, "b"⟩, ⟨50, "a"⟩] (some 52) =
      match [(⟨52, "b"⟩ : Playlist), ⟨50, "a"⟩].reverse.find? (fun p => p.mode == 52) with
      | some p => some p
      | none => [(⟨52, "b"⟩ : Playlist), ⟨50, "a"⟩].head?) ∧
    get_hls_playlist ⟨some [⟨50, "a"⟩, ⟨52, "b"⟩], none, none⟩ "3Mbps" "mid" =
      some ⟨52, "b"⟩ :=
  ⟨by decide,
    (get_playlist_or_best_last_match [⟨52, "b"⟩, ⟨50, "a"⟩] 52 (by decide)).1,
    (get_playlist_or_best_last_match [⟨52, "b"⟩, ⟨50, "a"⟩] 52 (by decide)).2⟩

theorem get_playlist_or_best_cons_isSome (p : Playlist) (rest : List Playlist)
    (mode : Option Int) : (get_playlist_or_best (p :: rest) mode).isSome := by
  unfold get_playlist_or_best
  cases h : (p :: rest).foldl (fun acc q => if some q.mode = mode then some q else acc) none with
  | some q => simp
  | none => simp

/-- C3: the selection pipeline fails (the code's `IndexError` from
`sorted_playlists[0]`, the specification's `EmptyManifestError`) exactly
when the merged variant set is empty; on every non-empty merged set it
returns a variant. -/
theorem selection_fails_iff_empty_merge (hls_info : HlsInfo) (mode : Option Int) :
    get_playlist_or_best (sort_playlists (merge_playlists hls_info)) mode = none ↔
      merge_playlists hls_info = [] := by
  constructor
  · intro h
    cases hs : sort_playlists (merge_playlists hls_info) with
    | nil =>
      have hperm := List.perm_insertionSort (fun a b => key_map b ≤ key_map a)
        (merge_playlists hls_info)
      rw [show sort_playlists (merge_playlists hls_info) =
        List.insertionSort (fun a b => key_map b ≤ key_map a) (merge_playlists hls_info)
        from rfl] at hs
      rw [hs] at hperm
      exact hperm.symm.eq_nil
    | cons p rest =>
      rw [hs] at h
      have := get_playlist_or_best_cons_isSome p rest mode
      rw [h] at this
      exact absurd this (by simp)
  · intro h
    rw [h]
    rfl

/-! ### Sorting: permutation, descending order, stability -/

theorem filter_orderedInsert_eq (k : Int) (a : Playlist) (ha : key_map a = k) :
    ∀ l : List Playlist,
      (List.orderedInsert (fun x y => key_map y ≤ key_map x) a l).filter
          (fun p => key_map p == k) =
        a :: l.filter (fun p => key_map p == k) := by
  intro l
  induction l with
  | nil => simp [List.orderedInsert, List.filter_cons, ha]
  | cons b rest ih =>
    by_cases hab : key_map b ≤ key_map a
    · rw [List.orderedInsert, if_pos hab]
      simp [List.filter_cons, ha]
    · have hbk : (key_map b == k) = false := by
        refine beq_eq_false_iff_ne.mpr ?_
        intro hbe
        exact hab (by rw [ha]; exact le_of_eq hbe)
      rw [List.orderedInsert, if_neg hab]
      simp [List.filter_cons, hbk, ih]

theorem filter_orderedInsert_ne (k : Int) (a : Playlist) (ha : key_map a ≠ k) :
    ∀ l : List Playlist,
      (List.orderedInsert (fun x y => key_map y ≤ key_map x) a l).filter
          (fun p => key_map p == k) =
        l.filter (fun p => key_map p == k) := by
  intro l
  have hak : (key_map a == k) = false := beq_eq_false_iff_ne.mpr ha
  induction l with
  | nil => simp [List.orderedInsert, List.filter_cons, hak]
  | cons b rest ih =>
    by_cases hab : key_map b ≤ key_map a
    · rw [List.orderedInsert, if_pos hab]
      simp [List.filter_cons, hak]
    · rw [List.orderedInsert, if_neg hab]
      simp [List.filter_cons, ih]

theorem filter_insertionSort (k : Int) :
    ∀ l : List Playlist,
      (List.insertionSort (fun a b => key_map b ≤ key_map a) l).filter
          (fun p => key_map p == k) =
        l.filter (fun p => key_map p == k) := by
  intro l
  induction l with
  | nil => rfl
  | cons a rest ih =>
    by_cases ha : key_map a = k
    · rw [List.insertionSort, filter_orderedInsert_eq k a ha, ih]
      simp [ha]
    · have hak : (key_map a == k) = false := beq_eq_false_iff_ne.mpr ha
      rw [List.insertionSort, filter_orderedInsert_ne k a ha, ih]
      simp [hak]

/-- C7: sorting the merged variants is a stable descending sort by
`key_map`: the output is a permutation of the input, pairwise descending
in `key_map`, every `key_map`-class keeps the relative order the merge
produced, and `key_map` subtracts 90 from modes at least 90 and is the
identity otherwise. -/
theorem sort_playlists_stable_descending (l : List Playlist) :
    List.Perm (sort_playlists l) l ∧
    List.Pairwise (fun a b => key_map b ≤ key_map a) (sort_playlists l) ∧
    (∀ k : Int, (sort_playlists l).filter (fun p => key_map p == k) =
      l.filter (fun p => key_map p == k)) ∧
    (∀ p : Playlist, key_map p = if p.mode ≥ 90 then p.mode - 90 else p.mode) := by
  refine ⟨List.perm_insertionSort _ l, ?_, fun k => filter_insertionSort k l, fun p => rfl⟩
  exact List.sorted_insertionSort (fun a b => key_map b ≤ key_map a) l

/-- C9: `format_mode` is a left inverse of `get_mode`: for every quality
key of `STREAM_QUALITY` (including the audio-only quality `sound`) and
every latency key of `STREAM_LATENCY`, encoding the pair with `get_mode`
and decoding the result with `format_mode` yields back exactly the pair
`(quality, latency)`. -/
theorem format_mode_left_inverse (q l : String × Int)
    (hq : q ∈ STREAM_QUALITY) (hl : l ∈ STREAM_LATENCY) :
    (get_mode q.1 l.1).bind format_mode = some (q.1, l.1) := by
  fin_cases hq <;> fin_cases hl <;> decide

/-- Witness for the C9 theorem at quality `sound` and latency `mid`. -/
theorem format_mode_left_inverse_witness :
    (("sound", (90 : Int)) ∈ STREAM_QUALITY ∧ ("mid", (2 : Int)) ∈ STREAM_LATENCY) ∧
    (get_mode "sound" "mid").bind format_mode = some ("sound", "mid") :=
  ⟨⟨by decide, by decide⟩,
    format_mode_left_inverse ("sound", 90) ("mid", 2) (by decide) (by decide)⟩

/-- C4: on a `control_disconnection` message the dispatch loop raises
`PaidProgramDisconnection` when `arguments.code` is 4101 and
`MultipleConnectionError` when it is 4512, terminating the loop; for any
other code the message is only trace-logged and the loop continues with
the rest of the state unchanged. -/
theorem control_disconnection_codes (st : WsState) (msg args code : JVal)
    (hname : jget msg "name" = some (.str "control_disconnection"))
    (hargs : jget msg "arguments" = some args)
    (hcode : jget args "code" = some code) :
    (code = .num 4101 → dispatch_message st msg = .error .paidProgram) ∧
    (code = .num 4512 → dispatch_message st msg = .error .multipleConnection) ∧
    (code ≠ .num 4101 → code ≠ .num 4512 →
      dispatch_message st msg = .ok { st with trace := st.trace ++ [msg] }) := by
  refine ⟨?_, ?_, ?_⟩
  · intro h
    subst h
    simp [dispatch_message, hname, hargs, hcode]
  · intro h
    subst h
    simp [dispatch_message, hname, hargs, hcode]
  · intro h1 h2
    simp [dispatch_message, hname, hargs, hcode, h1, h2]

/-- Witness for the C4 theorem: code 4101 raises the paid-program
disconnection, code 17 is ignored. -/
theorem control_disconnection_codes_witness :
    (jget (disconnection_msg 4101) "name" = some (.str "control_disconnection") ∧
      dispatch_message ws_state0 (disconnection_msg 4101) = .error .paidProgram) ∧
    dispatch_message ws_state0 (disconnection_msg 17) =
      .ok { ws_state0 with trace := ws_state0.trace ++ [disconnection_msg 17] } :=
  ⟨⟨by decide,
    (control_disconnection_codes ws_state0 (disconnection_msg 4101)
      (.obj (jobj [("code", .num 4101)])) (.num 4101) (by decide) (by decide)
      (by decide)).1 rfl⟩,
    (control_disconnection_codes ws_state0 (disconnection_msg 17)
      (.obj (jobj [("code", .num 17)])) (.num 17) (by decide) (by decide)
      (by decide)).2.2 (by decide) (by decide)⟩

/-- C5 (divergence witness): dispatching a `comment` message carrying the
comments `hello` and `world` leaves the `comments` queue empty — line 129
calls the coroutine function `asyncio.Queue.put` without awaiting it, so
no entry is ever pushed onto the queue, while the claim expects the queue
to receive both entries in order. -/
theorem comment_put_never_awaited :
    dispatch_message ws_state0 comment_msg =
      .ok { ws_state0 with trace := [comment_msg] } ∧
    (∀ st' : WsState, dispatch_message ws_state0 comment_msg = .ok st' →
      st'.comments = []) ∧
    ([] : List JVal) ≠ [.str "hello", .str "world"] := by
  refine ⟨rfl, ?_, by decide⟩
  intro st' h
  have hst : st' = { ws_state0 with trace := [comment_msg] } := by
    have hd : dispatch_message ws_state0 comment_msg =
        .ok { ws_state0 with trace := [comment_msg] } := rfl
    rw [hd] at h
    exact (Except.ok.inj h).symm
  rw [hst]
  rfl

/-! ### C1: id correlation of request/response calls -/

theorem run_table_skip (i : JVal) :
    ∀ (msgs : List JVal) (t0 t : WsTable),
      run_table t0 msgs = some t →
      msgs.filter (isResponseTo i) = [] →
      dictGet t i = dictGet t0 i := by
  intro msgs
  induction msgs with
  | nil =>
    intro t0 t hrun _
    simp only [run_table, Option.some.injEq] at hrun
    rw [hrun]
  | cons m0 rest ih =>
    intro t0 t hrun hfil
    rw [List.filter_cons] at hfil
    cases hr : receive_store t0 m0 with
    | none => simp [run_table, hr] at hrun
    | some t1 =>
      simp only [run_table, hr] at hrun
      cases hm : isResponseTo i m0 with
      | true =>
        rw [hm] at hfil
        simp at hfil
      | false =>
        rw [hm] at hfil
        simp only [Bool.false_eq_true, if_false] at hfil
        have h1 : dictGet t1 i = dictGet t0 i := by
          cases hname : jget m0 "name" with
          | none => simp [receive_store, hname] at hr
          | some nm =>
            by_cases hrsp : nm = .str "_response_"
            · cases hid : jget m0 "id" with
              | none => simp [receive_store, hname, hrsp, hid] at hr
              | some j =>
                have hrs : receive_store t0 m0 = some (dictSet t0 j m0) := by
                  simp [receive_store, hname, hrsp, hid]
                rw [hrs] at hr
                have ht1 : t1 = dictSet t0 j m0 := (Option.some.inj hr).symm
                have hji : j ≠ i := by
                  intro hj
                  have hn2 : jget m0 "name" = some (.str "_response_") := by
                    rw [hname, hrsp]
                  have hi2 : jget m0 "id" = some i := by rw [hid, hj]
                  have hT : isResponseTo i m0 = true := by
                    unfold isResponseTo
                    rw [hn2, hi2]
                    simp
                  rw [hT] at hm
                  exact Bool.noConfusion hm
                rw [ht1, dictGet_dictSet_ne _ _ _ _ hji]
            · have hrs : receive_store t0 m0 = some t0 := by
                simp [receive_store, hname, hrsp]
              rw [hrs] at hr
              rw [Option.some.inj hr]
        exact (ih t1 t hrun hfil).trans h1

theorem run_table_last (i : JVal) :
    ∀ (msgs : List JVal) (t0 t : WsTable) (m : JVal),
      run_table t0 msgs = some t →
      msgs.filter (isResponseTo i) = [m] →
      dictGet t i = some m := by
  intro msgs
  induction msgs with
  | nil =>
    intro t0 t m _ hfil
    simp at hfil
  | cons m0 rest ih =>
    intro t0 t m hrun hfil
    rw [List.filter_cons] at hfil
    cases hr : receive_store t0 m0 with
    | none => simp [run_table, hr] at hrun
    | some t1 =>
      simp only [run_table, hr] at hrun
      cases hm : isResponseTo i m0 with
      | true =>
        rw [hm] at hfil
        simp only [if_true] at hfil
        have hm0 : m0 = m := (List.cons.inj hfil).1
        have hrest : rest.filter (isResponseTo i) = [] := (List.cons.inj hfil).2
        have hand := hm
        unfold isResponseTo at hand
        rw [Bool.and_eq_true] at hand
        have hn : jget m0 "name" = some (.str "_response_") := of_decide_eq_true hand.1
        have hi : jget m0 "id" = some i := of_decide_eq_true hand.2
        have hrs : receive_store t0 m0 = some (dictSet t0 i m0) := by
          simp [receive_store, hn, hi]
        rw [hrs] at hr
        have ht1 : t1 = dictSet t0 i m0 := (Option.some.inj hr).symm
        have hskip := run_table_skip i rest t1 t hrun hrest
        rw [hskip, ht1, dictGet_dictSet_self, hm0]
      | false =>
        rw [hm] at hfil
        simp only [Bool.false_eq_true, if_false] at hfil
        exact ih t1 t m hrun hfil

/-- C1: whatever the order in which response messages arrive on the
socket relative to send order, and whichever tasks take them off the
socket, a caller of `_send_message_and_wait` obtains exactly the stored
response message whose id equals the id its send allocated, and
`get_hls_information` returns that message's `arguments`. -/
theorem call_resolves_by_id (msgs : List JVal) (table : WsTable) (msg_id m : JVal)
    (hrun : run_table [] msgs = some table)
    (hresp : msgs.filter (isResponseTo msg_id) = [m]) :
    send_message_and_wait_result table msg_id = some m ∧
    get_hls_information_result table msg_id = jget m "arguments" := by
  have hget : dictGet table msg_id = some m :=
    run_table_last msg_id msgs [] table m hrun hresp
  constructor
  · exact hget
  · unfold get_hls_information_result
    rw [hget]

/-- Witness for the C1 theorem: the responses arrive in the opposite
order of their ids, and the caller that allocated id 1 still obtains the
response with id 1. -/
theorem call_resolves_by_id_witness :
    run_table [] [c1_second_response, c1_first_response] = some c1_table ∧
    [c1_second_response, c1_first_response].filter (isResponseTo (.num 1)) =
      [c1_first_response] ∧
    send_message_and_wait_result c1_table (.num 1) = some c1_first_response ∧
    get_hls_information_result c1_table (.num 1) =
      jget c1_first_response "arguments" :=
  ⟨rfl, by decide,
    (call_resolves_by_id [c1_second_response, c1_first_response] c1_table (.num 1)
      c1_first_response rfl (by decide)).1,
    (call_resolves_by_id [c1_second_response, c1_first_response] c1_table (.num 1)
      c1_first_response rfl (by decide)).2⟩

/-! ### C6 and C10: the ffmpeg status line -/

/-- C6 (counterexample): the scenario line does not parse to the record
the claim states; the parse succeeds but assigns `speed` the value
`1.0x\x0d` — `readuntil` keeps the `\x0d` terminator, tokens are split on
spaces only, so the carriage return stays attached to the final token. -/
theorem get_status_scenario_counterexample :
    get_status (some status_scenario_line) ≠ some status_scenario_claimed ∧
    get_status (some status_scenario_line) = some status_scenario_actual ∧
    dictGet status_scenario_actual "speed".data = some (.str "1.0x\r".data) := by
  refine ⟨?_, rfl, rfl⟩
  intro h
  rw [show get_status (some status_scenario_line) = some status_scenario_actual
    from rfl] at h
  exact absurd (Option.some.inj h) (by decide)

theorem status_loop_eq_spec (toks : List (List Char)) :
    ∀ (last_item : List Char) (stats : StatsDict),
      status_loop toks last_item stats =
        statusSpecLoop (toks.zip (last_item :: toks)) stats := by
  induction toks with
  | nil => intro last stats; rfl
  | cons item rest ih =>
    intro last stats
    simp only [List.zip_cons_cons, statusSpecLoop, statusTokenStep, status_loop]
    by_cases h1 : last.getLast? = some '='
    · rw [if_pos h1, if_pos h1]
      exact ih item _
    · rw [if_neg h1, if_neg h1]
      by_cases h2 : '=' ∈ item
      · rw [if_pos h2, if_pos h2]
        cases h3 : pysplit '=' item with
        | nil => rfl
        | cons k tail =>
          cases tail with
          | nil => rfl
          | cons v tail2 =>
            cases tail2 with
            | nil => exact ih item _
            | cons w tail3 => rfl
      · rw [if_neg h2, if_neg h2]
        exact ih item stats

/-- C6 (amended): `get_status` tokenizes the line — read up to and
including its `\x0d` terminator — on single spaces, skipping empty
tokens; a token following a token that ended in `=` is assigned as that
key's value; otherwise a token containing exactly one `=` is split into
key and value; a token containing `=` more than once makes the whole
parse fail; tokens without `=` are ignored and absent keys keep their
defaults; the scenario line parses with `speed` keeping the trailing
carriage return. -/
theorem get_status_token_rules :
    (∀ line : String, get_status (some line) = statusSpecParse line) ∧
    get_status (some status_scenario_line) = some status_scenario_actual ∧
    get_status (some "a=b=c\r") = none ∧
    get_status (some "\r") = some status_defaults := by
  refine ⟨?_, rfl, rfl, rfl⟩
  intro line
  unfold get_status statusSpecParse
  exact status_loop_eq_spec _ _ _

theorem status_loop_preserves_key (k : List Char) :
    ∀ (toks : List (List Char)) (last_item : List Char) (stats st : StatsDict),
      status_loop toks last_item stats = some st →
      (dictGet stats k).isSome → (dictGet st k).isSome := by
  intro toks
  induction toks with
  | nil =>
    intro last_item stats st h hk
    simp only [status_loop, Option.some.injEq] at h
    rw [← h]
    exact hk
  | cons item rest ih =>
    intro last_item stats st h hk
    simp only [status_loop] at h
    by_cases h1 : last_item.getLast? = some '='
    · rw [if_pos h1] at h
      exact ih item _ st h (dictGet_dictSet_isSome _ _ _ _ hk)
    · rw [if_neg h1] at h
      by_cases h2 : '=' ∈ item
      · rw [if_pos h2] at h
        cases h3 : pysplit '=' item with
        | nil => rw [h3] at h; exact absurd h (by simp)
        | cons k1 tail =>
          cases tail with
          | nil => rw [h3] at h; exact absurd h (by simp)
          | cons v tail2 =>
            cases tail2 with
            | nil =>
              rw [h3] at h
              exact ih item _ st h (dictGet_dictSet_isSome _ _ _ _ hk)
            | cons w tail3 => rw [h3] at h; exact absurd h (by simp)
      · rw [if_neg h2] at h
        exact ih item stats st h hk

/-- C10: `print_status` is total and returns `True` exactly when
`get_status` produced a status record; it returns `False` whenever the
read failed (the stream ended) or the parse failed, for instance on a
token containing two `=` characters. -/
theorem print_status_total (stderr : Option String) :
    (print_status stderr = true ↔ (get_status stderr).isSome) ∧
    print_status none = false ∧
    print_status (some "x==y\r") = false := by
  refine ⟨?_, rfl, rfl⟩
  constructor
  · intro h
    cases hg : get_status stderr with
    | none =>
      unfold print_status at h
      rw [hg] at h
      exact Bool.noConfusion h
    | some stats => rfl
  · intro h
    cases hg : get_status stderr with
    | none => rw [hg] at h; exact Bool.noConfusion h
    | some stats =>
      have hsrc : ∃ s, stderr = some s := by
        cases stderr with
        | none => rw [show get_status none = none from rfl] at hg; exact Option.noConfusion hg
        | some s => exact ⟨s, rfl⟩
      obtain ⟨s, rfl⟩ := hsrc
      have hloop : status_loop ((pysplit ' ' s.data).filter (fun x => decide (0 < x.length)))
          "-".data status_defaults = some stats := hg
      have ht : (dictGet stats "time".data).isSome :=
        status_loop_preserves_key _ _ _ _ _ hloop (by decide)
      have hs : (dictGet stats "size".data).isSome :=
        status_loop_preserves_key _ _ _ _ _ hloop (by decide)
      obtain ⟨tv, htv⟩ := Option.isSome_iff_exists.mp ht
      obtain ⟨sv, hsv⟩ := Option.isSome_iff_exists.mp hs
      have hps : print_status (some s) =
          match dictGet stats "time".data, dictGet stats "size".data with
          | some _, some _ => true
          | _, _ => false := by
        unfold print_status
        rw [hg]
      rw [hps, htv, hsv]
